import Mathlib

/-!
Verification development for the resume-parser service (`main.py`).

The Python source is shallowly embedded: JSON/Python values become the
inductive `JValue`, the sanitizer `clean_text`, the accessors `safe_get` /
`safe_list_get`, the extractor `parse_resume`, the renderer story builder and
the upload handler become executable Lean functions translated line by line
from the source.  External effects (the generative-model call, `reportlab`
exceptions, the filesystem) are made explicit parameters or state.
-/

set_option maxHeartbeats 1000000

namespace ResumeParser

/-- Characters matched by the regex class \s (ASCII model of Python whitespace:
space, tab, newline, carriage return, vertical tab, form feed). -/
def isSpaceCh (c : Char) : Bool :=
  c = ' ' || c = '\t' || c = '\n' || c = Char.ofNat 13 || c = Char.ofNat 11 || c = Char.ofNat 12

/-- Characters matched by \w (ASCII model of Python word characters). -/
def isWordCh (c : Char) : Bool := c.isAlpha || c.isDigit || c = '_'

/-- The fixed punctuation whitelist of clean_text's first regex (main.py line 62):
hyphen period comma semicolon colon parens at slash backslash ampersand percent
dollar hash bang question plus equals star angle brackets braces square brackets
pipe tilde backquote double quote single quote degree sign. -/
def punctCh : List Char :=
  ['-', '.', ',', ';', ':', '(', ')', '@', '/', Char.ofNat 92, '&', '%', '$', '#', '!',
   '?', '+', '=', '*', '<', '>', Char.ofNat 123, Char.ofNat 125, '[', ']', '|', '~',
   Char.ofNat 96, Char.ofNat 34, Char.ofNat 39, Char.ofNat 176]

/-- A character survives `re.sub(r'[^\w\s...]', '', ·)` iff it is a word
character, whitespace, or whitelisted punctuation. -/
def isAllowedCh (c : Char) : Bool := isWordCh c || isSpaceCh c || punctCh.contains c

mutual
/-- `re.sub(r'\s+', ' ', ·)` (main.py line 65): every maximal whitespace run
becomes a single space. -/
def collapseWs : List Char → List Char
  | [] => []
  | c :: rest => if isSpaceCh c then ' ' :: inRun rest else c :: collapseWs rest

/-- Remainder of a whitespace run whose single replacement space was already emitted. -/
def inRun : List Char → List Char
  | [] => []
  | c :: rest => if isSpaceCh c then inRun rest else c :: collapseWs rest
end

/-- Drop trailing whitespace characters. -/
def dropTrailing : List Char → List Char
  | [] => []
  | c :: rest =>
    match dropTrailing rest with
    | [] => if isSpaceCh c then [] else [c]
    | r => c :: r

/-- Python `str.strip()` (main.py line 68): remove leading and trailing whitespace. -/
def stripWs (l : List Char) : List Char := dropTrailing (l.dropWhile isSpaceCh)

/-- The three sanitation passes of clean_text on an actual string
(main.py lines 62, 65, 68): whitelist filter, whitespace collapse, strip. -/
def cleanCore (l : List Char) : List Char := stripWs (collapseWs (l.filter isAllowedCh))

def cleanString (s : String) : String := String.mk (cleanCore s.data)

def stripS (s : String) : String := String.mk (stripWs s.data)

/-- JSON/Python values as they flow through the service.  Numbers are modelled
as integers (the schema carries no numeric field, numbers only appear when the
upstream model misbehaves). -/
inductive JValue where
  | JNull
  | JBool (b : Bool)
  | JNum (n : Int)
  | JStr (s : String)
  | JList (xs : List JValue)
  | JObj (kvs : List (String × JValue))
deriving Inhabited, Repr

/-- Python truthiness of a value: `None`, `False`, `0`, `""`, `[]`, `\x7b\x7d` are falsy. -/
def pyTruthy : JValue → Bool
  | .JNull => false
  | .JBool b => b
  | .JNum n => n != 0
  | .JStr s => s != ""
  | .JList xs => !xs.isEmpty
  | .JObj kvs => !kvs.isEmpty

def commaJoin : List String → String
  | [] => ""
  | [s] => s
  | s :: rest => s ++ ", " ++ commaJoin rest

/-- Python `repr` of a string: quoted with a single quote, or with a double
quote when the text holds a single quote and no double quote (escape sequences
inside the text are not modelled). -/
def strRepr (s : String) : String :=
  if s.contains (Char.ofNat 39) && !s.contains (Char.ofNat 34) then
    String.mk (Char.ofNat 34 :: (s.data ++ [Char.ofNat 34]))
  else
    String.mk (Char.ofNat 39 :: (s.data ++ [Char.ofNat 39]))

mutual
/-- Python `repr(·)`, which `str(·)` uses for the members of containers. -/
def pyRepr : JValue → String
  | .JNull => "None"
  | .JBool b => if b then "True" else "False"
  | .JNum n => toString n
  | .JStr s => strRepr s
  | .JList xs => "[" ++ commaJoin (pyReprList xs) ++ "]"
  | .JObj kvs => "\x7b" ++ commaJoin (pyReprKVs kvs) ++ "\x7d"

/-- The member representations of a Python list. -/
def pyReprList : List JValue → List String
  | [] => []
  | x :: xs => pyRepr x :: pyReprList xs

/-- The member representations of a Python dict. -/
def pyReprKVs : List (String × JValue) → List String
  | [] => []
  | (k, v) :: kvs => (strRepr k ++ ": " ++ pyRepr v) :: pyReprKVs kvs
end

/-- Python `str(·)`: identity on strings, `repr`-style for everything else. -/
def pyStr : JValue → String
  | .JStr s => s
  | .JNull => pyRepr .JNull
  | .JBool b => pyRepr (.JBool b)
  | .JNum n => pyRepr (.JNum n)
  | .JList xs => pyRepr (.JList xs)
  | .JObj kvs => pyRepr (.JObj kvs)

/-- clean_text (main.py lines 53-70): a falsy argument returns "" at once;
otherwise the value is stringified and put through the whitelist filter, the
whitespace collapse and the strip.  (Line 59's `if text is not None` guard is
unreachable here: None is falsy and already returned "".) -/
def clean_text (v : JValue) : String :=
  if pyTruthy v = false then ""
  else cleanString (pyStr v)

/-- First-match association-list lookup: Python `dict.get` over a record whose
keys, as everywhere in this service, come from a dict and hence are unique. -/
def lookupKV {α : Type} : List (String × α) → String → Option α
  | [], _ => none
  | (k, v) :: rest, key => if k = key then some v else lookupKV rest key

/-- safe_get (main.py lines 73-79): fetch `key` from the mapping (or fall back
to the default), then sanitize.  Neither `dict.get` nor clean_text can raise,
so the source's `except` arm is unreachable and the function is total. -/
def safe_get (data : JValue) (key : String) (default : JValue) : String :=
  clean_text (match data with
    | .JObj kvs => (lookupKV kvs key).getD default
    | _ => default)

/-- safe_get with the source's default argument `default=""`. -/
def safe_getD (data : JValue) (key : String) : String := safe_get data key (.JStr "")

def litNull : List Char := ['n', 'u', 'l', 'l']

def litTrue : List Char := ['t', 'r', 'u', 'e']

def litFalse : List Char := ['f', 'a', 'l', 's', 'e']

/-- Consume an expected literal from the head of the input. -/
def dropLit : List Char → List Char → Option (List Char)
  | [], cs => some cs
  | l :: ls, c :: cs => if c = l then dropLit ls cs else none
  | _ :: _, [] => none

def jSkipWs (cs : List Char) : List Char :=
  cs.dropWhile fun c => c = ' ' || c = '\t' || c = '\n' || c = Char.ofNat 13

def jDigits : List Char → Nat → Nat × List Char
  | c :: cs, acc =>
    if c.isDigit then jDigits cs (acc * 10 + (c.toNat - 48)) else (acc, c :: cs)
  | [], acc => (acc, [])

/-- Parse a JSON integer (a sign and digits; fractions are not modelled). -/
def jNumber : List Char → Option (JValue × List Char)
  | '-' :: c :: cs =>
    if c.isDigit then
      let (n, rest) := jDigits cs (c.toNat - 48)
      some (.JNum (-(n : Int)), rest)
    else none
  | c :: cs =>
    if c.isDigit then
      let (n, rest) := jDigits cs (c.toNat - 48)
      some (.JNum (n : Int), rest)
    else none
  | [] => none

def jUnescape (c : Char) : Char :=
  if c = 'n' then '\n' else if c = 't' then '\t' else if c = 'r' then Char.ofNat 13 else c

/-- Parse the body of a JSON string, the opening quote already consumed. -/
def jStringBody (fuel : Nat) (cs : List Char) : Option (List Char × List Char) :=
  match fuel, cs with
  | 0, _ => none
  | _, [] => none
  | fuel + 1, c :: rest =>
    if c = Char.ofNat 34 then some ([], rest)
    else if c = Char.ofNat 92 then
      match rest with
      | [] => none
      | d :: rest2 =>
        match jStringBody fuel rest2 with
        | some (s, r) => some (jUnescape d :: s, r)
        | none => none
    else
      match jStringBody fuel rest with
      | some (s, r) => some (c :: s, r)
      | none => none

mutual
/-- Recursive-descent JSON value parser (the model of `json_repair.loads`). -/
def jValue : Nat → List Char → Option (JValue × List Char)
  | 0, _ => none
  | fuel + 1, cs =>
    match jSkipWs cs with
    | [] => none
    | c :: rest =>
      if c = Char.ofNat 34 then
        match jStringBody (fuel + 1) rest with
        | some (s, r) => some (.JStr (String.mk s), r)
        | none => none
      else if c = '[' then
        match jSkipWs rest with
        | ']' :: r2 => some (.JList [], r2)
        | r => jElems fuel r []
      else if c = Char.ofNat 123 then
        match jSkipWs rest with
        | r =>
          if r.head? = some (Char.ofNat 125) then some (.JObj [], r.tail)
          else jMembers fuel r []
      else if c = 'n' then
        match dropLit litNull (c :: rest) with
        | some r => some (.JNull, r)
        | none => none
      else if c = 't' then
        match dropLit litTrue (c :: rest) with
        | some r => some (.JBool true, r)
        | none => none
      else if c = 'f' then
        match dropLit litFalse (c :: rest) with
        | some r => some (.JBool false, r)
        | none => none
      else jNumber (c :: rest)

/-- Parse the elements of a non-empty JSON array, accumulating in reverse. -/
def jElems : Nat → List Char → List JValue → Option (JValue × List Char)
  | 0, _, _ => none
  | fuel + 1, cs, acc =>
    match jValue fuel cs with
    | none => none
    | some (v, rest) =>
      match jSkipWs rest with
      | ',' :: r2 => jElems fuel r2 (v :: acc)
      | ']' :: r2 => some (.JList (acc.reverse ++ [v]), r2)
      | _ => none

/-- Parse the members of a non-empty JSON object, accumulating in reverse. -/
def jMembers : Nat → List Char → List (String × JValue) → Option (JValue × List Char)
  | 0, _, _ => none
  | fuel + 1, cs, acc =>
    match jSkipWs cs with
    | c :: rest =>
      if c = Char.ofNat 34 then
        match jStringBody (fuel + 1) rest with
        | some (k, r1) =>
          match jSkipWs r1 with
          | ':' :: r2 =>
            match jValue fuel r2 with
            | some (v, r3) =>
              match jSkipWs r3 with
              | ',' :: r4 => jMembers fuel r4 ((String.mk k, v) :: acc)
              | r4 =>
                if r4.head? = some (Char.ofNat 125) then
                  some (.JObj ((acc.reverse ++ [(String.mk k, v)])), r4.tail)
                else none
            | none => none
          | _ => none
        | none => none
      else none
    | [] => none
end

/-- Model of `json_repair.loads`: a strict JSON parse of the whole input,
`none` when the text is not well-formed JSON.  (The real library additionally
repairs malformations; every claim that touches it depends only on well-formed
inputs and on the fact that an unparseable input yields a non-list, non-dict
result, which `none` also captures.) -/
def jsonRepairLoads (s : String) : Option JValue :=
  match jValue (2 * s.data.length + 8) s.data with
  | some (v, rest) => if jSkipWs rest = [] then some v else none
  | none => none

/-- safe_list_get (main.py lines 82-99).  Per the spec the default is a
sequence when given ("a default sequence, empty if unspecified"); `none`
models the source's `default=None`, replaced by `[]` on entry. -/
def safe_list_get (data : JValue) (key : String) (default : Option (List JValue)) :
    List JValue :=
  let d := default.getD []
  match data with
  | .JObj kvs =>
    match lookupKV kvs key with
    | some (.JList xs) => xs
    | some (.JStr s) =>
      match jsonRepairLoads s with
      | some (.JList ys) => ys
      | _ => d
    | some _ => d
    | none => d
  | _ => d

/-- Value-wise sanitation of a dict's entries (the comprehension of
main.py lines 144 and 149). -/
def cleanPairs (kvs : List (String × JValue)) : List (String × JValue) :=
  kvs.map fun p => (p.1, .JStr (clean_text p.2))

/-- Sanitation of one list item (main.py lines 147-151): a dict item is cleaned
value-wise, any other item is sanitized directly. -/
def cleanItem : JValue → JValue
  | .JObj kvs => .JObj (cleanPairs kvs)
  | .JNull => .JStr (clean_text .JNull)
  | .JBool b => .JStr (clean_text (.JBool b))
  | .JNum n => .JStr (clean_text (.JNum n))
  | .JStr s => .JStr (clean_text (.JStr s))
  | .JList xs => .JStr (clean_text (.JList xs))

/-- The cleaning pass parse_resume applies to one top-level value of the model's
JSON object (main.py lines 140-153): strings are sanitized, the values of a
nested dict are sanitized, list items are sanitized per-item, and any other
value (null, bool, number) is kept unchanged. -/
def cleanTop : JValue → JValue
  | .JStr s => .JStr (clean_text (.JStr s))
  | .JObj kvs => .JObj (cleanPairs kvs)
  | .JList xs => .JList (xs.map cleanItem)
  | .JNull => .JNull
  | .JBool b => .JBool b
  | .JNum n => .JNum n

/-- The safe default structure of parse_resume's except arm
(main.py lines 161-166). -/
def defaultRecord (e : String) : JValue :=
  .JObj [("first_name", .JStr ""), ("last_name", .JStr ""), ("email", .JStr ""),
    ("phone", .JStr ""), ("location", .JStr ""), ("social", .JObj []),
    ("skills", .JStr ""), ("work", .JList []), ("education", .JList []),
    ("projects", .JList []), ("certifications", .JList []), ("achievements", .JList []),
    ("other", .JObj []), ("summary", .JStr ""),
    ("parsing_error", .JStr ("Parsing failed: " ++ e))]

/-- parse_resume (main.py lines 103-166).  The external generate_content call
is modelled by its outcome: `.error e` when the call (or response access)
raises with message `e`, `.ok raw` when it returns the reply text `raw`.
A reply whose tolerant parse is not a dict makes `.items()` raise, landing in
the same except arm as a call failure. -/
def parse_resume : Except String String → JValue
  | .error e => defaultRecord e
  | .ok raw =>
    match jsonRepairLoads raw with
    | some (.JObj kvs) => .JObj (kvs.map fun p => (p.1, cleanTop p.2))
    | some _ => defaultRecord "object has no attribute items"
    | none => defaultRecord "could not parse model reply"

/-- The five section fields the upload handler re-parses when they arrive as
strings (main.py line 429). -/
def listFields : List String := ["work", "education", "projects", "achievements", "certifications"]

/-- Handler coercion of one list-shaped field (main.py lines 430-436): a string
value is re-parsed and kept only when the parse yields a list, else replaced by
`[]`; a non-string value is left alone. -/
def coerceListField (v : JValue) : JValue :=
  match v with
  | .JStr s =>
    match jsonRepairLoads s with
    | some (.JList xs) => .JList xs
    | _ => .JList []
  | w => w

/-- Handler coercion of the `other` field (main.py lines 439-445): a string
value is re-parsed and kept only when the parse yields a dict, else replaced by
an empty dict; a non-string value is left alone. -/
def coerceOther (v : JValue) : JValue :=
  match v with
  | .JStr s =>
    match jsonRepairLoads s with
    | some (.JObj kvs) => .JObj kvs
    | _ => .JObj []
  | w => w

/-- The upload handler's shape coercion over the whole record
(main.py lines 429-445). -/
def coerceFields (kvs : List (String × JValue)) : List (String × JValue) :=
  kvs.map fun p =>
    if p.1 ∈ listFields then (p.1, coerceListField p.2)
    else if p.1 = "other" then (p.1, coerceOther p.2)
    else p

def handlerCoerce : JValue → JValue
  | .JObj kvs => .JObj (coerceFields kvs)
  | v => v

/-- End-to-end normalization of a model reply that parsed as a JSON object:
parse_resume's cleaning pass followed by the handler's shape coercion. -/
def pipeline (kvs : List (String × JValue)) : List (String × JValue) :=
  coerceFields (kvs.map fun p => (p.1, cleanTop p.2))

/-- What `pipeline` does to a single field. -/
def processEntry (k : String) (v : JValue) : JValue :=
  if k ∈ listFields then coerceListField (cleanTop v)
  else if k = "other" then coerceOther (cleanTop v)
  else cleanTop v

/-- One flowable of the rendered document: a styled paragraph, a spacer, or a
two-column table given by its rows. -/
inductive Elem where
  | para (style : String) (text : String)
  | spacer (w h : Nat)
  | table (rows : List (List String))
deriving Inhabited, Repr, DecidableEq

/-- Python str.title(), ASCII model: an alphabetic character is uppercased
after a non-alphabetic position and lowercased otherwise. -/
def titleGo : List Char → Bool → List Char
  | [], _ => []
  | c :: rest, prevAlpha =>
    (if c.isAlpha then (if prevAlpha then c.toLower else c.toUpper) else c) ::
      titleGo rest c.isAlpha

def pyTitle (s : String) : String := String.mk (titleGo s.data false)

/-- The joined contact name (main.py line 214): first and last name fetched
through safe_get, glued with one space, then stripped. -/
def joinedName (data : JValue) : String :=
  stripS (safe_getD data "first_name" ++ " " ++ safe_getD data "last_name")

/-- The rows of the contact table (main.py lines 218-226). -/
def contactRows (data : JValue) : List (List String) :=
  (if stripS (joinedName data) ≠ "" then [["Name:", joinedName data]] else []) ++
  (if safe_getD data "email" ≠ "" then [["Email:", safe_getD data "email"]] else []) ++
  (if safe_getD data "phone" ≠ "" then [["Phone:", safe_getD data "phone"]] else []) ++
  (if safe_getD data "location" ≠ "" then [["Location:", safe_getD data "location"]] else [])

/-- The contact section (main.py lines 214-237): everything, heading included,
sits under `if name.strip():`. -/
def contactBlock (data : JValue) : List Elem :=
  if stripS (joinedName data) ≠ "" then
    [.para "heading" "Contact Information"] ++
      (if contactRows data ≠ [] then [.table (contactRows data), .spacer 1 12] else [])
  else []

/-- The social-links section (main.py lines 240-257). -/
def socialBlock (data : JValue) : List Elem :=
  let social := match data with
    | .JObj kvs => (lookupKV kvs "social").getD (.JObj [])
    | _ => .JObj []
  match social with
  | .JObj entries =>
    if pyTruthy (.JObj entries) then
      let rows := entries.filterMap fun p =>
        if pyTruthy p.2 && clean_text p.2 ≠ "" then
          some [pyTitle p.1 ++ ":", clean_text p.2]
        else none
      if rows ≠ [] then
        [.para "heading" "Social Links", .table rows, .spacer 1 12]
      else []
    else []
  | _ => []

def summaryBlock (data : JValue) : List Elem :=
  if safe_getD data "summary" ≠ "" then
    [.para "heading" "Summary", .para "normal" (safe_getD data "summary"), .spacer 1 12]
  else []

def skillsBlock (data : JValue) : List Elem :=
  if safe_getD data "skills" ≠ "" then
    [.para "heading" "Skills", .para "normal" (safe_getD data "skills"), .spacer 1 12]
  else []

/-- One work entry (main.py lines 277-297): only dict entries render, and only
when company or title is non-empty. -/
def renderJob (job : JValue) : List Elem :=
  match job with
  | .JObj _ =>
    let company := safe_getD job "company"
    let title := safe_getD job "title"
    let startDate := safe_getD job "startDate"
    let endDate := safe_getD job "endDate"
    let description := safe_getD job "description"
    if company ≠ "" ∨ title ≠ "" then
      [.para "normal" (if title ≠ "" ∧ company ≠ "" then
          "<b>" ++ title ++ "</b> at <b>" ++ company ++ "</b>"
        else "<b>" ++ (if title ≠ "" then title else company) ++ "</b>")] ++
      (if startDate ≠ "" ∨ endDate ≠ "" then
        [.para "normal" ("<i>" ++ (if startDate ≠ "" ∧ endDate ≠ "" then
            startDate ++ " - " ++ endDate
          else if startDate ≠ "" then startDate else endDate) ++ "</i>")]
      else []) ++
      (if description ≠ "" then [.para "normal" description] else []) ++
      [.spacer 1 6]
    else []
  | _ => []

/-- One education entry (main.py lines 303-323). -/
def renderEdu (edu : JValue) : List Elem :=
  match edu with
  | .JObj _ =>
    let degree := safe_getD edu "degree"
    let institution := safe_getD edu "institution"
    let startDate := safe_getD edu "startDate"
    let endDate := safe_getD edu "endDate"
    let gpa := safe_getD edu "percentage/gpa"
    if degree ≠ "" ∨ institution ≠ "" then
      [.para "normal" (if degree ≠ "" ∧ institution ≠ "" then
          "<b>" ++ degree ++ "</b> - <b>" ++ institution ++ "</b>"
        else "<b>" ++ (if degree ≠ "" then degree else institution) ++ "</b>")] ++
      (if startDate ≠ "" ∨ endDate ≠ "" then
        [.para "normal" ("<i>" ++ (if startDate ≠ "" ∧ endDate ≠ "" then
            startDate ++ " - " ++ endDate
          else if startDate ≠ "" then startDate else endDate) ++ "</i>")]
      else []) ++
      (if gpa ≠ "" then [.para "normal" ("GPA/Percentage: " ++ gpa)] else []) ++
      [.spacer 1 6]
    else []
  | _ => []

/-- One project entry (main.py lines 329-338). -/
def renderProject (project : JValue) : List Elem :=
  match project with
  | .JObj _ =>
    let name := safe_getD project "name"
    let description := safe_getD project "description"
    if name ≠ "" then
      [.para "normal" ("<b>" ++ name ++ "</b>")] ++
      (if description ≠ "" then [.para "normal" description] else []) ++
      [.spacer 1 6]
    else []
  | _ => []

/-- One certification entry (main.py lines 344-353). -/
def renderCert (cert : JValue) : List Elem :=
  match cert with
  | .JObj _ =>
    let name := safe_getD cert "name"
    let description := safe_getD cert "description"
    if name ≠ "" then
      [.para "normal" ("• " ++ name ++ (if description ≠ "" then ": " ++ description else ""))]
    else []
  | _ => []

/-- One achievement entry (main.py lines 359-368). -/
def renderAch (ach : JValue) : List Elem :=
  match ach with
  | .JObj _ =>
    let name := safe_getD ach "name"
    let description := safe_getD ach "description"
    if name ≠ "" then
      [.para "normal" ("• " ++ name ++ (if description ≠ "" then ": " ++ description else ""))]
    else []
  | _ => []

/-- Concatenated renderings of a section's entries. -/
def elemsOf (f : JValue → List Elem) : List JValue → List Elem
  | [] => []
  | x :: xs => f x ++ elemsOf f xs

def getList (data : JValue) (key : String) : List JValue := safe_list_get data key none

def workBlock (data : JValue) : List Elem :=
  if (getList data "work").isEmpty = false then
    .para "heading" "Work Experience" :: elemsOf renderJob (getList data "work")
  else []

def eduBlock (data : JValue) : List Elem :=
  if (getList data "education").isEmpty = false then
    .para "heading" "Education" :: elemsOf renderEdu (getList data "education")
  else []

def projectsBlock (data : JValue) : List Elem :=
  if (getList data "projects").isEmpty = false then
    .para "heading" "Projects" :: elemsOf renderProject (getList data "projects")
  else []

def certBlock (data : JValue) : List Elem :=
  if (getList data "certifications").isEmpty = false then
    .para "heading" "Certifications" :: elemsOf renderCert (getList data "certifications")
  else []

def achBlock (data : JValue) : List Elem :=
  if (getList data "achievements").isEmpty = false then
    .para "heading" "Achievements" :: elemsOf renderAch (getList data "achievements")
  else []

/-- The other-information section (main.py lines 371-388). -/
def otherBlock (data : JValue) : List Elem :=
  let other := match data with
    | .JObj kvs => (lookupKV kvs "other").getD (.JObj [])
    | _ => .JObj []
  match other with
  | .JObj entries =>
    if pyTruthy (.JObj entries) then
      let rows := entries.filterMap fun p =>
        if clean_text p.2 ≠ "" then
          some [clean_text (.JStr p.1) ++ ":", clean_text p.2]
        else none
      if rows ≠ [] then [.para "heading" "Other Information", .table rows] else []
    else []
  | _ => []

/-- The full story built by generate_pdf_reportlab (main.py lines 209-391). -/
def buildStory (data : JValue) : List Elem :=
  [.para "title" "Processed Resume", .spacer 1 12] ++
  contactBlock data ++ socialBlock data ++ summaryBlock data ++ skillsBlock data ++
  workBlock data ++ eduBlock data ++ projectsBlock data ++ certBlock data ++
  achBlock data ++ otherBlock data

/-- The filesystem: a path-to-document association, newest write first. -/
def FS : Type := List (String × List Elem)

def fsWrite (fs : FS) (path : String) (doc : List Elem) : FS := (path, doc) :: fs

/-- generate_pdf_reportlab (main.py lines 170-397).  `buildOk` is the outcome
of the reportlab calls: when they raise, the except arm (lines 394-397) returns
False and nothing was persisted; otherwise the story is written to `path` and
the function returns True. -/
def generate_pdf (buildOk : Bool) (data : JValue) (path : String) (fs : FS) : Bool × FS :=
  if buildOk then (true, fsWrite fs path (buildStory data)) else (false, fs)

/-- The minimal fallback document of the upload handler (main.py lines 467-471). -/
def fallbackStory : List Elem :=
  [.para "Title" "Resume Processing Failed",
   .para "Normal" "The resume was uploaded but PDF generation encountered an error.",
   .para "Normal" "Please check the JSON data for extracted information."]

/-- The handler's fallback rendering (main.py lines 461-476), with its own
reportlab outcome `buildOk`. -/
def fallbackRender (buildOk : Bool) (path : String) (fs : FS) : Bool × FS :=
  if buildOk then (true, fsWrite fs path fallbackStory) else (false, fs)

def pyLower (s : String) : String := String.mk (s.data.map Char.toLower)

def strEndsWith (s suffix : String) : Bool := suffix.data.isSuffixOf s.data

/-- The JSON envelope of a successful upload response (main.py lines 479-487). -/
structure Resp where
  json : JValue
  pdf_url : String
  download_url : String
deriving Repr

/-- Outcome of one upload request: the HTTP response (error status and detail,
or the success envelope), whether parse_resume was invoked, and the filesystem
after the request. -/
structure UploadResult where
  response : Except (Nat × String) Resp
  extracted : Bool
  fs : FS

/-- upload_resume (main.py lines 406-494).  `filename` is the client filename
("" when absent), `bodyLen` the upload size in bytes, `reply` the outcome of
the external model call, `renderOk` / `fallbackOk` the outcomes of the two
reportlab builds, `fs` the filesystem at entry and `pdfFilename` the generated
unique output name (timestamp, random id and sanitized client name). -/
def upload_resume (filename : String) (bodyLen : Nat) (reply : Except String String)
    (renderOk fallbackOk : Bool) (fs : FS) (pdfFilename : String) : UploadResult :=
  if filename = "" then ⟨.error (400, "No filename provided"), false, fs⟩
  else if strEndsWith (pyLower filename) ".pdf" = false then
    ⟨.error (400, "Only PDF files are allowed"), false, fs⟩
  else if bodyLen = 0 then ⟨.error (400, "Empty file uploaded"), false, fs⟩
  else if bodyLen > 10 * 1024 * 1024 then
    ⟨.error (400, "File too large. Maximum size is 10MB"), false, fs⟩
  else
    let data := handlerCoerce (parse_resume reply)
    let path := "static/" ++ pdfFilename
    match generate_pdf renderOk data path fs with
    | (true, fs1) =>
      ⟨.ok ⟨data, "/static/" ++ pdfFilename, "/download-pdf/" ++ pdfFilename⟩, true, fs1⟩
    | (false, fs1) =>
      match fallbackRender fallbackOk path fs1 with
      | (true, fs2) =>
        ⟨.ok ⟨data, "/static/" ++ pdfFilename, "/download-pdf/" ++ pdfFilename⟩, true, fs2⟩
      | (false, fs2) => ⟨.error (500, "Failed to generate PDF"), true, fs2⟩

/-! Sanitizer lemmas: the output of `cleanCore` is a fixed point of every one
of its three passes, hence of `cleanCore` itself. -/

/-- No two adjacent whitespace characters. -/
def noTwoSpaces : List Char → Bool
  | [] => true
  | [_] => true
  | c :: d :: rest => !(isSpaceCh c && isSpaceCh d) && noTwoSpaces (d :: rest)

/-- The head, when present, is not whitespace. -/
def headNotSpace : List Char → Bool
  | [] => true
  | c :: _ => !isSpaceCh c

theorem space_allowed : isAllowedCh ' ' = true := by decide

theorem noTwoSpaces_tail {c : Char} {l : List Char} (h : noTwoSpaces (c :: l) = true) :
    noTwoSpaces l = true := by
  cases l with
  | nil => rfl
  | cons d rest => simp [noTwoSpaces] at h; simp [h.2]

theorem noTwoSpaces_cons_of_head {c : Char} {l : List Char}
    (h1 : headNotSpace l = true) (h2 : noTwoSpaces l = true) :
    noTwoSpaces (c :: l) = true := by
  cases l with
  | nil => rfl
  | cons d rest =>
    simp [headNotSpace] at h1
    simp [noTwoSpaces, h1, h2]

theorem noTwoSpaces_cons_of_nonspace {c : Char} {l : List Char}
    (h1 : isSpaceCh c = false) (h2 : noTwoSpaces l = true) :
    noTwoSpaces (c :: l) = true := by
  cases l with
  | nil => rfl
  | cons d rest => simp [noTwoSpaces, h1, h2]

theorem collapse_mem :
    ∀ l : List Char,
      (∀ c ∈ collapseWs l, c = ' ' ∨ (c ∈ l ∧ isSpaceCh c = false)) ∧
      (∀ c ∈ inRun l, c = ' ' ∨ (c ∈ l ∧ isSpaceCh c = false)) := by
  intro l
  induction l with
  | nil => constructor <;> intro c hc <;> simp [collapseWs, inRun] at hc
  | cons a rest ih =>
    constructor
    · intro c hc
      rw [collapseWs] at hc
      by_cases ha : isSpaceCh a = true
      · simp [ha] at hc
        rcases hc with rfl | hc
        · exact Or.inl rfl
        · rcases ih.2 c hc with h | h
          · exact Or.inl h
          · exact Or.inr ⟨List.mem_cons_of_mem _ h.1, h.2⟩
      · simp [ha] at hc
        rcases hc with rfl | hc
        · exact Or.inr ⟨List.mem_cons_self _ _, by simpa using ha⟩
        · rcases ih.1 c hc with h | h
          · exact Or.inl h
          · exact Or.inr ⟨List.mem_cons_of_mem _ h.1, h.2⟩
    · intro c hc
      rw [inRun] at hc
      by_cases ha : isSpaceCh a = true
      · simp [ha] at hc
        rcases ih.2 c hc with h | h
        · exact Or.inl h
        · exact Or.inr ⟨List.mem_cons_of_mem _ h.1, h.2⟩
      · simp [ha] at hc
        rcases hc with rfl | hc
        · exact Or.inr ⟨List.mem_cons_self _ _, by simpa using ha⟩
        · rcases ih.1 c hc with h | h
          · exact Or.inl h
          · exact Or.inr ⟨List.mem_cons_of_mem _ h.1, h.2⟩

theorem collapse_shape :
    ∀ l : List Char,
      noTwoSpaces (collapseWs l) = true ∧
      noTwoSpaces (inRun l) = true ∧ headNotSpace (inRun l) = true := by
  intro l
  induction l with
  | nil => exact ⟨rfl, rfl, rfl⟩
  | cons a rest ih =>
    obtain ⟨ih1, ih2, ih3⟩ := ih
    refine ⟨?_, ?_, ?_⟩
    · rw [collapseWs]
      by_cases ha : isSpaceCh a = true
      · simp only [ha, if_true]
        exact noTwoSpaces_cons_of_head ih3 ih2
      · simp only [ha, if_false, Bool.false_eq_true]
        exact noTwoSpaces_cons_of_nonspace (by simpa using ha) ih1
    · rw [inRun]
      by_cases ha : isSpaceCh a = true
      · simpa [ha] using ih2
      · simp only [ha, if_false, Bool.false_eq_true]
        exact noTwoSpaces_cons_of_nonspace (by simpa using ha) ih1
    · rw [inRun]
      by_cases ha : isSpaceCh a = true
      · simpa [ha] using ih3
      · simp [headNotSpace, ha]

theorem collapse_id :
    ∀ l : List Char, (∀ c ∈ l, isSpaceCh c = true → c = ' ') → noTwoSpaces l = true →
      collapseWs l = l ∧ (headNotSpace l = true → inRun l = l) := by
  intro l
  induction l with
  | nil => exact fun _ _ => ⟨rfl, fun _ => rfl⟩
  | cons a rest ih =>
    intro hsp hnt
    have hrest := ih (fun c hc => hsp c (List.mem_cons_of_mem _ hc)) (noTwoSpaces_tail hnt)
    constructor
    · rw [collapseWs]
      by_cases ha : isSpaceCh a = true
      · have haeq : a = ' ' := hsp a (List.mem_cons_self _ _) ha
        have hhead : headNotSpace rest = true := by
          cases rest with
          | nil => rfl
          | cons d r2 =>
            simp [noTwoSpaces, ha] at hnt
            simp [headNotSpace, hnt.1]
        rw [if_pos ha, hrest.2 hhead, haeq]
      · rw [if_neg ha, hrest.1]
    · intro hh
      rw [inRun]
      have ha : isSpaceCh a = false := by
        simp [headNotSpace] at hh; simpa using hh
      simp [ha, hrest.1]

theorem mem_dropWhile {c : Char} {p : Char → Bool} :
    ∀ {l : List Char}, c ∈ l.dropWhile p → c ∈ l := by
  intro l
  induction l with
  | nil => simp
  | cons a rest ih =>
    intro h
    rw [List.dropWhile_cons] at h
    by_cases ha : p a = true
    · simp only [ha, if_true] at h
      exact List.mem_cons_of_mem _ (ih h)
    · simp only [ha] at h
      simpa using h

theorem noTwoSpaces_dropWhile {p : Char → Bool} :
    ∀ {l : List Char}, noTwoSpaces l = true → noTwoSpaces (l.dropWhile p) = true := by
  intro l
  induction l with
  | nil => simp
  | cons a rest ih =>
    intro h
    rw [List.dropWhile_cons]
    by_cases ha : p a = true
    · simp only [ha, if_true]
      exact ih (noTwoSpaces_tail h)
    · simpa [ha] using h

theorem headNotSpace_dropWhile :
    ∀ l : List Char, headNotSpace (l.dropWhile isSpaceCh) = true := by
  intro l
  induction l with
  | nil => rfl
  | cons a rest ih =>
    rw [List.dropWhile_cons]
    by_cases ha : isSpaceCh a = true
    · simpa [ha] using ih
    · simp [ha, headNotSpace]

theorem dropWhile_eq_self_of_head {l : List Char} (h : headNotSpace l = true) :
    l.dropWhile isSpaceCh = l := by
  cases l with
  | nil => rfl
  | cons a rest =>
    simp [headNotSpace] at h
    simp [List.dropWhile_cons, h]

theorem dropTrailing_append : ∀ l : List Char, ∃ t, l = dropTrailing l ++ t := by
  intro l
  induction l with
  | nil => exact ⟨[], rfl⟩
  | cons a rest ih =>
    obtain ⟨t, ht⟩ := ih
    rw [dropTrailing]
    rcases hr : dropTrailing rest with _ | ⟨b, r2⟩
    · by_cases ha : isSpaceCh a = true
      · refine ⟨a :: rest, by simp [ha]⟩
      · refine ⟨t, by simp [ha]; rw [ht, hr]; simp⟩
    · refine ⟨t, ?_⟩
      simp only []
      rw [List.cons_append]
      congr 1
      rw [ht, hr]

theorem noTwoSpaces_append_left :
    ∀ (l₁ l₂ : List Char), noTwoSpaces (l₁ ++ l₂) = true → noTwoSpaces l₁ = true := by
  intro l₁
  induction l₁ with
  | nil => intro _ _; rfl
  | cons a rest ih =>
    intro l₂ h
    cases rest with
    | nil => rfl
    | cons b r2 =>
      rw [List.cons_append, List.cons_append] at h
      rw [noTwoSpaces] at h ⊢
      simp only [Bool.and_eq_true] at h ⊢
      exact ⟨h.1, ih l₂ h.2⟩

theorem mem_dropTrailing {c : Char} {l : List Char} (h : c ∈ dropTrailing l) : c ∈ l := by
  obtain ⟨t, ht⟩ := dropTrailing_append l
  rw [ht]
  exact List.mem_append_left _ h

theorem noTwoSpaces_dropTrailing {l : List Char} (h : noTwoSpaces l = true) :
    noTwoSpaces (dropTrailing l) = true := by
  obtain ⟨t, ht⟩ := dropTrailing_append l
  rw [ht] at h
  exact noTwoSpaces_append_left _ _ h

theorem headNotSpace_dropTrailing {l : List Char} (h : headNotSpace l = true) :
    headNotSpace (dropTrailing l) = true := by
  obtain ⟨t, ht⟩ := dropTrailing_append l
  rcases hd : dropTrailing l with _ | ⟨b, r⟩
  · rfl
  · rw [hd] at ht
    cases l with
    | nil => simp at ht
    | cons a rest =>
      rw [List.cons_append] at ht
      injection ht with h1 _
      subst h1
      simpa [headNotSpace] using h

theorem dropTrailing_idem : ∀ l : List Char, dropTrailing (dropTrailing l) = dropTrailing l := by
  intro l
  induction l with
  | nil => rfl
  | cons a rest ih =>
    rcases hr : dropTrailing rest with _ | ⟨b, r2⟩
    · by_cases ha : isSpaceCh a = true
      · have h1 : dropTrailing (a :: rest) = [] := by rw [dropTrailing, hr]; simp [ha]
        rw [h1]; rfl
      · have h1 : dropTrailing (a :: rest) = [a] := by rw [dropTrailing, hr]; simp [ha]
        rw [h1]
        simp [dropTrailing, ha]
    · have h1 : dropTrailing (a :: rest) = a :: b :: r2 := by rw [dropTrailing, hr]
      rw [h1, dropTrailing]
      rw [hr] at ih
      rw [ih]

theorem stripWs_idem (l : List Char) : stripWs (stripWs l) = stripWs l := by
  unfold stripWs
  rw [dropWhile_eq_self_of_head
    (headNotSpace_dropTrailing (headNotSpace_dropWhile l))]
  exact dropTrailing_idem _

theorem mem_stripWs {c : Char} {l : List Char} (h : c ∈ stripWs l) : c ∈ l :=
  mem_dropWhile (mem_dropTrailing h)

theorem cleanCore_fix (l : List Char) : cleanCore (cleanCore l) = cleanCore l := by
  have hmem : ∀ c ∈ cleanCore l, c = ' ' ∨ (isSpaceCh c = false ∧ isAllowedCh c = true) := by
    intro c hc
    have hc2 := mem_stripWs hc
    rcases (collapse_mem (l.filter isAllowedCh)).1 c hc2 with h | h
    · exact Or.inl h
    · exact Or.inr ⟨h.2, (List.mem_filter.mp h.1).2⟩
  have hallow : ∀ c ∈ cleanCore l, isAllowedCh c = true := by
    intro c hc
    rcases hmem c hc with rfl | h
    · exact space_allowed
    · exact h.2
  have hsp : ∀ c ∈ cleanCore l, isSpaceCh c = true → c = ' ' := by
    intro c hc hspace
    rcases hmem c hc with rfl | h
    · rfl
    · rw [h.1] at hspace; cases hspace
  have hnt : noTwoSpaces (cleanCore l) = true := by
    unfold cleanCore stripWs
    exact noTwoSpaces_dropTrailing
      (noTwoSpaces_dropWhile (collapse_shape (l.filter isAllowedCh)).1)
  have hhead : headNotSpace (cleanCore l) = true := by
    unfold cleanCore stripWs
    exact headNotSpace_dropTrailing (headNotSpace_dropWhile _)
  conv_lhs => rw [cleanCore]
  rw [List.filter_eq_self.mpr hallow]
  rw [(collapse_id (cleanCore l) hsp hnt).1]
  rw [show cleanCore l = stripWs (collapseWs (List.filter isAllowedCh l)) from rfl]
  exact stripWs_idem _

theorem cleanString_fix (s : String) : cleanString (cleanString s) = cleanString s := by
  unfold cleanString
  rw [show (String.mk (cleanCore s.data)).data = cleanCore s.data from rfl]
  rw [cleanCore_fix]

theorem stripS_idem (s : String) : stripS (stripS s) = stripS s := by
  unfold stripS
  rw [show (String.mk (stripWs s.data)).data = stripWs s.data from rfl]
  rw [stripWs_idem]

theorem clean_text_truthy {v : JValue} (h : pyTruthy v = true) :
    clean_text v = cleanString (pyStr v) := by
  rw [clean_text, if_neg (by rw [h]; simp)]

theorem clean_text_falsy {v : JValue} (h : pyTruthy v = false) : clean_text v = "" := by
  rw [clean_text, if_pos h]

/-- clean_text is a retraction: sanitizing a sanitized string changes nothing. -/
theorem clean_text_idem (v : JValue) : clean_text (.JStr (clean_text v)) = clean_text v := by
  by_cases h : pyTruthy v = true
  · rw [clean_text_truthy h]
    by_cases hs : cleanString (pyStr v) = ""
    · rw [hs]; rfl
    · rw [clean_text_truthy (v := .JStr (cleanString (pyStr v))) (by simp [pyTruthy, hs])]
      exact cleanString_fix _
  · have h' : pyTruthy v = false := by simpa using h
    rw [clean_text_falsy h']
    rfl

/-- The stringification step as claim C6 words it: a string is kept, null
becomes the empty string, everything else is stringified. -/
def pyStringify : JValue → String
  | .JNull => ""
  | .JStr s => s
  | .JBool b => pyStr (.JBool b)
  | .JNum n => pyStr (.JNum n)
  | .JList xs => pyStr (.JList xs)
  | .JObj kvs => pyStr (.JObj kvs)

/-- The sanitation algorithm exactly as claim C6 words it: stringify first
(null becoming the empty string), then remove the characters outside the
whitelist, collapse whitespace runs to one space and trim. -/
def sanitizeSpec (v : JValue) : String := cleanString (pyStringify v)

/-- C5 (confirmed): the sanitizer is idempotent — for every input value,
clean_text applied to the output of clean_text yields the same string. -/
theorem c5_sanitizer_idempotent (v : JValue) :
    clean_text (.JStr (clean_text v)) = clean_text v :=
  clean_text_idem v

/-- C6 counterexample: at the number 0 (falsy but not null), clean_text
returns "" while the claimed stringify-filter-collapse-trim algorithm
returns "0" — the claim's description of clean_text fails at this input. -/
theorem c6_counterexample :
    clean_text (.JNum 0) = "" ∧ sanitizeSpec (.JNum 0) = "0" ∧
      clean_text (.JNum 0) ≠ sanitizeSpec (.JNum 0) := by
  refine ⟨rfl, by decide, by decide⟩

/-- C6 (amended): clean_text never raises (it is a total function into
strings) and behaves as the claim describes — stringify, filter against the
whitelist, collapse whitespace, trim — except that every *falsy* input (null,
false, zero, the empty string, an empty container), not only null, short-cuts
to the empty string. -/
theorem c6_clean_text_characterization (v : JValue) :
    clean_text v = if pyTruthy v = true then sanitizeSpec v else "" := by
  by_cases h : pyTruthy v = true
  · rw [if_pos h, clean_text_truthy h]
    cases v with
    | JNull => simp [pyTruthy] at h
    | JBool b => rfl
    | JNum n => rfl
    | JStr s => rfl
    | JList xs => rfl
    | JObj kvs => rfl
  · rw [if_neg h, clean_text_falsy (by simpa using h)]


theorem data_append (s t : String) : (s ++ t).data = s.data ++ t.data := by
  cases s; cases t; rfl

theorem pyStr_jlist_ne (xs : List JValue) : pyStr (.JList xs) ≠ "" := by
  intro h
  have hd := congrArg String.data h
  rw [show pyStr (.JList xs) = "[" ++ commaJoin (pyReprList xs) ++ "]" from rfl] at hd
  simp [data_append] at hd

theorem pyStr_jobj_ne (kvs : List (String × JValue)) : pyStr (.JObj kvs) ≠ "" := by
  intro h
  have hd := congrArg String.data h
  rw [show pyStr (.JObj kvs) = "\x7b" ++ commaJoin (pyReprKVs kvs) ++ "\x7d" from rfl] at hd
  simp [data_append] at hd

/-- Sanitizing a truthy list equals sanitizing its textual representation. -/
theorem clean_text_jlist (xs : List JValue) (h : xs ≠ []) :
    clean_text (.JList xs) = clean_text (.JStr (pyStr (.JList xs))) := by
  rw [clean_text_truthy (by simp [pyTruthy, h])]
  rw [clean_text_truthy (v := .JStr (pyStr (.JList xs)))
    (by simp [pyTruthy]; exact pyStr_jlist_ne xs)]
  rfl

/-- Sanitizing a truthy dict equals sanitizing its textual representation. -/
theorem clean_text_jobj (kvs : List (String × JValue)) (h : kvs ≠ []) :
    clean_text (.JObj kvs) = clean_text (.JStr (pyStr (.JObj kvs))) := by
  rw [clean_text_truthy (by simp [pyTruthy, h])]
  rw [clean_text_truthy (v := .JStr (pyStr (.JObj kvs)))
    (by simp [pyTruthy]; exact pyStr_jobj_ne kvs)]
  rfl

/-- The value `safe_get` hands to the sanitizer. -/
def jGet (data : JValue) (key : String) (default : JValue) : JValue :=
  match data with
  | .JObj kvs => (lookupKV kvs key).getD default
  | _ => default

/-- C9 counterexample: for a stored empty sequence, safe_get returns "" while
the claimed stringify-then-sanitize mechanism yields "[]" — the claim's
universal description fails on empty (falsy) containers. -/
theorem c9_counterexample :
    safe_get (.JObj [("a", .JList [])]) "a" (.JStr "") = "" ∧
    clean_text (.JStr (pyStr (.JList []))) = "[]" ∧
    safe_get (.JObj [("a", .JList [])]) "a" (.JStr "") ≠
      clean_text (.JStr (pyStr (.JList []))) := by
  refine ⟨by decide, by decide, by decide⟩

/-- C9 (amended): safe_get always returns a string — it is total into String —
and a stored container is stringified via its Python textual representation and
then sanitized, provided the container is non-empty; an empty container is
falsy and short-cuts to "". -/
theorem c9_safe_get_stringifies :
    (∀ data key default, safe_get data key default = clean_text (jGet data key default)) ∧
    (∀ kvs key default xs, lookupKV kvs key = some (.JList xs) → xs ≠ [] →
      safe_get (.JObj kvs) key default = clean_text (.JStr (pyStr (.JList xs)))) ∧
    (∀ kvs key default m, lookupKV kvs key = some (.JObj m) → m ≠ [] →
      safe_get (.JObj kvs) key default = clean_text (.JStr (pyStr (.JObj m)))) ∧
    safe_get (.JObj [("a", .JList [.JNum 1, .JNum 2])]) "a" (.JStr "") = "[1, 2]" := by
  refine ⟨fun data key default => rfl, ?_, ?_, by decide⟩
  · intro kvs key default xs hl hne
    rw [show safe_get (.JObj kvs) key default = clean_text (jGet (.JObj kvs) key default)
        from rfl]
    rw [jGet, hl]
    exact clean_text_jlist xs hne
  · intro kvs key default m hl hne
    rw [show safe_get (.JObj kvs) key default = clean_text (jGet (.JObj kvs) key default)
        from rfl]
    rw [jGet, hl]
    exact clean_text_jobj m hne

/-- Witness for C9: the amended theorem applied at a concrete record holding a
non-empty sequence. -/
theorem c9_witness :
    safe_get (.JObj [("w", .JList [.JNum 7])]) "w" (.JStr "") =
      clean_text (.JStr (pyStr (.JList [.JNum 7]))) :=
  c9_safe_get_stringifies.2.1 [("w", .JList [.JNum 7])] "w" (.JStr "") [.JNum 7]
    rfl (by simp)

/-- Predicate: the value is a sequence. -/
def isJList : JValue → Bool
  | .JList _ => true
  | _ => false

/-- Predicate: the value is a mapping. -/
def isJObj : JValue → Bool
  | .JObj _ => true
  | _ => false

/-- Predicate: the value is a string. -/
def isJStr : JValue → Bool
  | .JStr _ => true
  | _ => false

/-- C7 (confirmed): safe_list_get is total and returns the stored value when it
is already a sequence; for a stored string, the tolerant parse when it yields a
sequence and otherwise the default; and the default for any other stored type,
an absent key, or a non-mapping input.  The claim's two concrete examples close
the statement. -/
theorem c7_safe_list_get_cases :
    (∀ kvs key d xs, lookupKV kvs key = some (.JList xs) →
      safe_list_get (.JObj kvs) key d = xs) ∧
    (∀ kvs key d s xs, lookupKV kvs key = some (.JStr s) →
      jsonRepairLoads s = some (.JList xs) → safe_list_get (.JObj kvs) key d = xs) ∧
    (∀ kvs key d s, lookupKV kvs key = some (.JStr s) →
      (∀ xs, jsonRepairLoads s ≠ some (.JList xs)) →
      safe_list_get (.JObj kvs) key d = d.getD []) ∧
    (∀ kvs key d v, lookupKV kvs key = some v → isJList v = false → isJStr v = false →
      safe_list_get (.JObj kvs) key d = d.getD []) ∧
    (∀ kvs key d, lookupKV kvs key = none → safe_list_get (.JObj kvs) key d = d.getD []) ∧
    (∀ v key d, isJObj v = false → safe_list_get v key d = d.getD []) ∧
    safe_list_get (.JObj [("k", .JStr "[\x7b\"name\":\"x\"\x7d]")]) "k" none =
      [.JObj [("name", .JStr "x")]] ∧
    safe_list_get (.JObj [("k", .JStr "not json")]) "k" none = [] := by
  refine ⟨?_, ?_, ?_, ?_, ?_, ?_, by rfl, by rfl⟩
  · intro kvs key d xs hl
    rw [safe_list_get, hl]
  · intro kvs key d s xs hl hj
    rw [safe_list_get, hl]
    simp only [hj]
  · intro kvs key d s hl hj
    rw [safe_list_get, hl]
    rcases hp : jsonRepairLoads s with _ | v
    · simp only [hp]
    · cases v with
      | JList ys => exact absurd hp (hj ys)
      | JNull => simp only [hp]
      | JBool b => simp only [hp]
      | JNum n => simp only [hp]
      | JStr t => simp only [hp]
      | JObj m => simp only [hp]
  · intro kvs key d v hl h1 h2
    rw [safe_list_get, hl]
    cases v with
    | JList xs => simp [isJList] at h1
    | JStr s => simp [isJStr] at h2
    | JNull => rfl
    | JBool b => rfl
    | JNum n => rfl
    | JObj m => rfl
  · intro kvs key d hl
    rw [safe_list_get, hl]
  · intro v key d hv
    cases v with
    | JObj kvs => simp [isJObj] at hv
    | JNull => rfl
    | JBool b => rfl
    | JNum n => rfl
    | JStr s => rfl
    | JList xs => rfl

/-- Witness for C7: the stored-sequence case applied at a concrete record. -/
theorem c7_witness :
    safe_list_get (.JObj [("w", .JList [.JNum 5])]) "w" none = [.JNum 5] :=
  c7_safe_list_get_cases.1 [("w", .JList [.JNum 5])] "w" none [.JNum 5] rfl

/-- The fourteen schema fields of the extraction prompt (main.py lines 105-117). -/
def schemaFields : List String :=
  ["first_name", "last_name", "email", "phone", "location", "social", "skills",
   "work", "education", "projects", "certifications", "achievements", "other", "summary"]

/-- An empty value in the sense of the spec: empty string, sequence or mapping. -/
def isEmptyVal : JValue → Bool
  | .JStr s => s == ""
  | .JList xs => xs.isEmpty
  | .JObj kvs => kvs.isEmpty
  | _ => false

/-- The extraction pipeline fails when the external call raises or when the
reply does not parse to a JSON object (a non-dict makes `.items()` raise). -/
def extractionFails : Except String String → Bool
  | .error _ => true
  | .ok raw =>
    match jsonRepairLoads raw with
    | some (.JObj _) => false
    | _ => true

def recordKVs : JValue → List (String × JValue)
  | .JObj kvs => kvs
  | _ => []

theorem append_ne_empty {s : String} (t : String) (h : s.data ≠ []) : s ++ t ≠ "" := by
  intro he
  have hd := congrArg String.data he
  rw [data_append] at hd
  rcases List.append_eq_nil.mp hd with ⟨h1, _⟩
  exact h h1

theorem defaultRecord_spec (e : String) :
    (∀ f ∈ schemaFields, ∃ v, lookupKV (recordKVs (defaultRecord e)) f = some v ∧
      isEmptyVal v = true) ∧
    (∃ m, lookupKV (recordKVs (defaultRecord e)) "parsing_error" = some (.JStr m) ∧
      m ≠ "") := by
  constructor
  · intro f hf
    fin_cases hf
    · exact ⟨_, rfl, rfl⟩
    · exact ⟨_, rfl, rfl⟩
    · exact ⟨_, rfl, rfl⟩
    · exact ⟨_, rfl, rfl⟩
    · exact ⟨_, rfl, rfl⟩
    · exact ⟨_, rfl, rfl⟩
    · exact ⟨_, rfl, rfl⟩
    · exact ⟨_, rfl, rfl⟩
    · exact ⟨_, rfl, rfl⟩
    · exact ⟨_, rfl, rfl⟩
    · exact ⟨_, rfl, rfl⟩
    · exact ⟨_, rfl, rfl⟩
    · exact ⟨_, rfl, rfl⟩
    · exact ⟨_, rfl, rfl⟩
  · exact ⟨"Parsing failed: " ++ e, rfl, append_ne_empty e (by decide)⟩

/-- C2 (confirmed): on every failing extraction — call error, or a reply whose
tolerant parse is not an object — parse_resume returns (it cannot raise, being
total) a record in which every schema field is present and empty, plus a
non-empty parsing_error message. -/
theorem c2_extraction_failure (inp : Except String String)
    (h : extractionFails inp = true) :
    (∀ f ∈ schemaFields, ∃ v, lookupKV (recordKVs (parse_resume inp)) f = some v ∧
      isEmptyVal v = true) ∧
    (∃ m, lookupKV (recordKVs (parse_resume inp)) "parsing_error" = some (.JStr m) ∧
      m ≠ "") := by
  have key : ∃ e, parse_resume inp = defaultRecord e := by
    cases inp with
    | error e => exact ⟨e, rfl⟩
    | ok raw =>
      rw [extractionFails] at h
      rcases hp : jsonRepairLoads raw with _ | v
      · exact ⟨_, by rw [parse_resume, hp]⟩
      · cases v with
        | JObj kvs => rw [hp] at h; simp at h
        | JNull => exact ⟨_, by rw [parse_resume, hp]⟩
        | JBool b => exact ⟨_, by rw [parse_resume, hp]⟩
        | JNum n => exact ⟨_, by rw [parse_resume, hp]⟩
        | JStr s => exact ⟨_, by rw [parse_resume, hp]⟩
        | JList xs => exact ⟨_, by rw [parse_resume, hp]⟩
  obtain ⟨e, he⟩ := key
  rw [he]
  exact defaultRecord_spec e

/-- Witness for C2: a concrete failing call, evaluated. -/
theorem c2_witness :
    extractionFails (.error "boom") = true ∧
    (∃ m, lookupKV (recordKVs (parse_resume (.error "boom"))) "parsing_error" =
      some (.JStr m) ∧ m ≠ "") :=
  ⟨rfl, (c2_extraction_failure (.error "boom") rfl).2⟩

theorem renderJob_nonobj (v : JValue) (h : isJObj v = false) : renderJob v = [] := by
  cases v with
  | JObj kvs => simp [isJObj] at h
  | JNull => rfl
  | JBool b => rfl
  | JNum n => rfl
  | JStr s => rfl
  | JList xs => rfl

theorem renderEdu_nonobj (v : JValue) (h : isJObj v = false) : renderEdu v = [] := by
  cases v with
  | JObj kvs => simp [isJObj] at h
  | JNull => rfl
  | JBool b => rfl
  | JNum n => rfl
  | JStr s => rfl
  | JList xs => rfl

theorem renderProject_nonobj (v : JValue) (h : isJObj v = false) : renderProject v = [] := by
  cases v with
  | JObj kvs => simp [isJObj] at h
  | JNull => rfl
  | JBool b => rfl
  | JNum n => rfl
  | JStr s => rfl
  | JList xs => rfl

theorem renderCert_nonobj (v : JValue) (h : isJObj v = false) : renderCert v = [] := by
  cases v with
  | JObj kvs => simp [isJObj] at h
  | JNull => rfl
  | JBool b => rfl
  | JNum n => rfl
  | JStr s => rfl
  | JList xs => rfl

theorem renderAch_nonobj (v : JValue) (h : isJObj v = false) : renderAch v = [] := by
  cases v with
  | JObj kvs => simp [isJObj] at h
  | JNull => rfl
  | JBool b => rfl
  | JNum n => rfl
  | JStr s => rfl
  | JList xs => rfl

theorem elemsOf_filter_obj (f : JValue → List Elem)
    (hf : ∀ v, isJObj v = false → f v = []) :
    ∀ xs : List JValue, elemsOf f xs = elemsOf f (xs.filter isJObj) := by
  intro xs
  induction xs with
  | nil => rfl
  | cons a rest ih =>
    rw [elemsOf]
    by_cases ha : isJObj a = true
    · rw [List.filter_cons_of_pos ha, elemsOf, ih]
    · rw [List.filter_cons_of_neg (by simpa using ha), hf a (by simpa using ha), ih]
      simp

/-- C10 (confirmed): in each of the five list-shaped sections, the rendered
output equals the rendering of only the mapping entries — every non-mapping
entry contributes nothing — and each renderer maps a concrete non-mapping
entry to the empty output. -/
theorem c10_nonmapping_entries_skipped :
    (∀ xs : List JValue, elemsOf renderJob xs = elemsOf renderJob (xs.filter isJObj)) ∧
    (∀ xs : List JValue, elemsOf renderEdu xs = elemsOf renderEdu (xs.filter isJObj)) ∧
    (∀ xs : List JValue,
      elemsOf renderProject xs = elemsOf renderProject (xs.filter isJObj)) ∧
    (∀ xs : List JValue, elemsOf renderCert xs = elemsOf renderCert (xs.filter isJObj)) ∧
    (∀ xs : List JValue, elemsOf renderAch xs = elemsOf renderAch (xs.filter isJObj)) ∧
    renderJob (.JStr "plain entry") = [] ∧
    renderEdu .JNull = [] ∧
    renderProject (.JNum 3) = [] ∧
    renderCert (.JBool true) = [] ∧
    renderAch (.JList [.JStr "x"]) = [] :=
  ⟨elemsOf_filter_obj _ renderJob_nonobj, elemsOf_filter_obj _ renderEdu_nonobj,
   elemsOf_filter_obj _ renderProject_nonobj, elemsOf_filter_obj _ renderCert_nonobj,
   elemsOf_filter_obj _ renderAch_nonobj, rfl, rfl, rfl, rfl, rfl⟩

theorem stripS_joinedName (data : JValue) :
    stripS (joinedName data) = joinedName data := by
  rw [joinedName]
  exact stripS_idem _

/-- C3 counterexample: a record whose email is non-empty but whose name is
empty gets no contact block at all — the claimed "at least one of the four"
condition fails; the code gates the whole block on the joined name alone. -/
theorem c3_counterexample :
    contactBlock (.JObj [("email", .JStr "a@b.c")]) = [] ∧
    safe_getD (.JObj [("email", .JStr "a@b.c")]) "email" ≠ "" := by
  exact ⟨by decide, by decide⟩

/-- C3 (amended): the renderer includes the contact block if and only if the
name joined from first and last name is non-empty; when included, it is the
heading plus a two-column label/value table whose rows are the name row and
the optional email, phone and location rows. -/
theorem c3_contact_block (data : JValue) :
    (contactBlock data = [] ↔ joinedName data = "") ∧
    (joinedName data ≠ "" →
      contactBlock data =
        [.para "heading" "Contact Information", .table (contactRows data), .spacer 1 12] ∧
      ["Name:", joinedName data] ∈ contactRows data) := by
  have hs := stripS_joinedName data
  by_cases hn : joinedName data = ""
  · constructor
    · rw [contactBlock, hs, if_neg (by simp [hn])]
      simp [hn]
    · intro hcontra
      exact absurd hn hcontra
  · have hrows : contactRows data =
        ["Name:", joinedName data] ::
          ((if safe_getD data "email" ≠ "" then [["Email:", safe_getD data "email"]] else []) ++
           (if safe_getD data "phone" ≠ "" then [["Phone:", safe_getD data "phone"]] else []) ++
           (if safe_getD data "location" ≠ ""
             then [["Location:", safe_getD data "location"]] else [])) := by
      rw [contactRows, hs, if_pos hn]
      simp [List.append_assoc]
    constructor
    · constructor
      · intro hblock
        rw [contactBlock, hs, if_pos hn] at hblock
        rw [if_pos (by rw [hrows]; simp)] at hblock
        simp at hblock
      · intro hcontra
        exact absurd hcontra hn
    · intro _
      constructor
      · rw [contactBlock, hs, if_pos hn, if_pos (by rw [hrows]; simp)]
        rfl
      · rw [hrows]
        exact List.mem_cons_self _ _

/-- Witness for C3: the amended theorem applied at a record with a first name. -/
theorem c3_witness :
    contactBlock (.JObj [("first_name", .JStr "Ada")]) =
      [.para "heading" "Contact Information",
       .table (contactRows (.JObj [("first_name", .JStr "Ada")])), .spacer 1 12] :=
  ((c3_contact_block (.JObj [("first_name", .JStr "Ada")])).2 (by decide)).1

/-- C4 (confirmed): a missing filename, a filename not ending in ".pdf"
(case-insensitively), an empty body, or a body over 10 MiB each make the
upload handler answer 400 with a non-empty detail, with no extraction
attempted and the filesystem untouched. -/
theorem c4_upload_validation (filename : String) (bodyLen : Nat)
    (reply : Except String String) (renderOk fallbackOk : Bool) (fs : FS)
    (pdfFilename : String)
    (h : filename = "" ∨ strEndsWith (pyLower filename) ".pdf" = false ∨
      bodyLen = 0 ∨ bodyLen > 10 * 1024 * 1024) :
    ∃ d, (upload_resume filename bodyLen reply renderOk fallbackOk fs pdfFilename).response
        = .error (400, d) ∧ d ≠ "" ∧
      (upload_resume filename bodyLen reply renderOk fallbackOk fs pdfFilename).extracted
        = false ∧
      (upload_resume filename bodyLen reply renderOk fallbackOk fs pdfFilename).fs = fs := by
  by_cases h1 : filename = ""
  · have hU : upload_resume filename bodyLen reply renderOk fallbackOk fs pdfFilename =
        ⟨.error (400, "No filename provided"), false, fs⟩ := by
      rw [upload_resume, if_pos h1]
    exact ⟨"No filename provided", by rw [hU], by decide, by rw [hU], by rw [hU]⟩
  · by_cases h2 : strEndsWith (pyLower filename) ".pdf" = false
    · have hU : upload_resume filename bodyLen reply renderOk fallbackOk fs pdfFilename =
          ⟨.error (400, "Only PDF files are allowed"), false, fs⟩ := by
        rw [upload_resume, if_neg h1, if_pos h2]
      exact ⟨"Only PDF files are allowed", by rw [hU], by decide, by rw [hU], by rw [hU]⟩
    · by_cases h3 : bodyLen = 0
      · have hU : upload_resume filename bodyLen reply renderOk fallbackOk fs pdfFilename =
            ⟨.error (400, "Empty file uploaded"), false, fs⟩ := by
          rw [upload_resume, if_neg h1, if_neg h2, if_pos h3]
        exact ⟨"Empty file uploaded", by rw [hU], by decide, by rw [hU], by rw [hU]⟩
      · by_cases h4 : bodyLen > 10 * 1024 * 1024
        · have hU : upload_resume filename bodyLen reply renderOk fallbackOk fs pdfFilename =
              ⟨.error (400, "File too large. Maximum size is 10MB"), false, fs⟩ := by
            rw [upload_resume, if_neg h1, if_neg h2, if_neg h3, if_pos h4]
          exact ⟨"File too large. Maximum size is 10MB", by rw [hU], by decide,
            by rw [hU], by rw [hU]⟩
        · exfalso
          rcases h with h' | h' | h' | h'
          · exact h1 h'
          · exact h2 h'
          · exact h3 h'
          · exact h4 h'

/-- Witness for C4: a text upload is rejected with 400, nothing extracted,
nothing written. -/
theorem c4_witness :
    ∃ d, (upload_resume "resume.txt" 5 (.error "e") true true [] "out.pdf").response =
        .error (400, d) ∧ d ≠ "" ∧
      (upload_resume "resume.txt" 5 (.error "e") true true [] "out.pdf").extracted = false ∧
      (upload_resume "resume.txt" 5 (.error "e") true true [] "out.pdf").fs = [] :=
  c4_upload_validation "resume.txt" 5 (.error "e") true true [] "out.pdf"
    (Or.inr (Or.inl (by decide)))

theorem lookupKV_write (fs : FS) (p : String) (doc : List Elem) :
    lookupKV (fsWrite fs p doc) p = some doc := by
  rw [fsWrite, lookupKV, if_pos rfl]

/-- C8 (confirmed): the renderer turns any reportlab failure into a False
return with nothing persisted instead of raising, and every successful upload
response refers to a path at which a document exists — the fallback document
whenever the main rendering had failed. -/
theorem c8_render_failure_fallback (filename : String) (bodyLen : Nat)
    (reply : Except String String) (renderOk fallbackOk : Bool) (fs : FS)
    (pdfFilename : String) (r : Resp)
    (h : (upload_resume filename bodyLen reply renderOk fallbackOk fs pdfFilename).response
      = .ok r) :
    (∀ d p f, generate_pdf false d p f = (false, f)) ∧
    r.pdf_url = "/static/" ++ pdfFilename ∧
    ∃ doc,
      lookupKV (upload_resume filename bodyLen reply renderOk fallbackOk fs pdfFilename).fs
        ("static/" ++ pdfFilename) = some doc ∧
      (renderOk = false → doc = fallbackStory) := by
  refine ⟨fun d p f => rfl, ?_⟩
  by_cases h1 : filename = ""
  · rw [upload_resume, if_pos h1] at h
    simp at h
  by_cases h2 : strEndsWith (pyLower filename) ".pdf" = false
  · rw [upload_resume, if_neg h1, if_pos h2] at h
    simp at h
  by_cases h3 : bodyLen = 0
  · rw [upload_resume, if_neg h1, if_neg h2, if_pos h3] at h
    simp at h
  by_cases h4 : bodyLen > 10 * 1024 * 1024
  · rw [upload_resume, if_neg h1, if_neg h2, if_neg h3, if_pos h4] at h
    simp at h
  cases renderOk with
  | true =>
    have hU : upload_resume filename bodyLen reply true fallbackOk fs pdfFilename =
        ⟨.ok ⟨handlerCoerce (parse_resume reply), "/static/" ++ pdfFilename,
          "/download-pdf/" ++ pdfFilename⟩, true,
         fsWrite fs ("static/" ++ pdfFilename)
           (buildStory (handlerCoerce (parse_resume reply)))⟩ := by
      rw [upload_resume, if_neg h1, if_neg h2, if_neg h3, if_neg h4]
      rfl
    rw [hU] at h
    simp only [Except.ok.injEq] at h
    subst h
    refine ⟨rfl, buildStory (handlerCoerce (parse_resume reply)), ?_, ?_⟩
    · rw [hU]
      exact lookupKV_write _ _ _
    · intro hcontra
      cases hcontra
  | false =>
    cases fallbackOk with
    | true =>
      have hU : upload_resume filename bodyLen reply false true fs pdfFilename =
          ⟨.ok ⟨handlerCoerce (parse_resume reply), "/static/" ++ pdfFilename,
            "/download-pdf/" ++ pdfFilename⟩, true,
           fsWrite fs ("static/" ++ pdfFilename) fallbackStory⟩ := by
        rw [upload_resume, if_neg h1, if_neg h2, if_neg h3, if_neg h4]
        rfl
      rw [hU] at h
      simp only [Except.ok.injEq] at h
      subst h
      refine ⟨rfl, fallbackStory, ?_, fun _ => rfl⟩
      rw [hU]
      exact lookupKV_write _ _ _
    | false =>
      have hU : upload_resume filename bodyLen reply false false fs pdfFilename =
          ⟨.error (500, "Failed to generate PDF"), true, fs⟩ := by
        rw [upload_resume, if_neg h1, if_neg h2, if_neg h3, if_neg h4]
        rfl
      rw [hU] at h
      simp at h

/-- Witness for C8: a request whose main rendering fails still answers 200 and
the fallback document sits at the response's path. -/
theorem c8_witness :
    ∃ doc,
      lookupKV (upload_resume "r.pdf" 5 (.error "x") false true [] "out.pdf").fs
        ("static/" ++ "out.pdf") = some doc ∧ (false = false → doc = fallbackStory) :=
  (c8_render_failure_fallback "r.pdf" 5 (.error "x") false true [] "out.pdf"
    ⟨handlerCoerce (parse_resume (.error "x")), "/static/" ++ "out.pdf",
      "/download-pdf/" ++ "out.pdf"⟩ rfl).2.2

/-- The value is a string that sanitization would leave unchanged. -/
def isSanStr : JValue → Bool
  | .JStr s => clean_text (.JStr s) == s
  | _ => false

/-- The value is a mapping all of whose values are sanitized strings. -/
def objOfSan : JValue → Bool
  | .JObj kvs => kvs.all fun p => isSanStr p.2
  | _ => false

/-- A cleaned list entry: a value-wise sanitized mapping or a sanitized string. -/
def cleanedItem : JValue → Bool
  | .JObj kvs => kvs.all fun p => isSanStr p.2
  | .JStr s => clean_text (.JStr s) == s
  | _ => false

/-- The value is a sequence all of whose entries are cleaned. -/
def listOfClean : JValue → Bool
  | .JList xs => xs.all cleanedItem
  | _ => false

mutual
/-- Claim C1's leaf condition: every leaf of the value is a sanitized string. -/
def leavesSanitized : JValue → Bool
  | .JNull => false
  | .JBool _ => false
  | .JNum _ => false
  | .JStr s => clean_text (.JStr s) == s
  | .JList xs => leavesSanitizedList xs
  | .JObj kvs => leavesSanitizedKVs kvs

/-- leavesSanitized over the entries of a sequence. -/
def leavesSanitizedList : List JValue → Bool
  | [] => true
  | x :: xs => leavesSanitized x && leavesSanitizedList xs

/-- leavesSanitized over the values of a mapping. -/
def leavesSanitizedKVs : List (String × JValue) → Bool
  | [] => true
  | (_, v) :: kvs => leavesSanitized v && leavesSanitizedKVs kvs
end

/-- Claim C1's shape condition on one field: the five section fields must be
sequences, social and other must be mappings. -/
def expectedShape (k : String) (v : JValue) : Bool :=
  if k ∈ listFields then isJList v
  else if k = "social" ∨ k = "other" then isJObj v
  else true

/-- Claim C1's normalization invariant over a record, exactly as worded:
every field has its expected container shape and every leaf value is a
sanitized string. -/
def normInvariant (r : List (String × JValue)) : Bool :=
  r.all fun p => expectedShape p.1 p.2 && leavesSanitized p.2

theorem isSanStr_clean (v : JValue) : isSanStr (.JStr (clean_text v)) = true := by
  rw [isSanStr, clean_text_idem]
  simp

theorem objOfSan_cleanPairs (m : List (String × JValue)) :
    objOfSan (.JObj (cleanPairs m)) = true := by
  rw [objOfSan, cleanPairs, List.all_map]
  apply List.all_eq_true.mpr
  intro p _
  exact isSanStr_clean p.2

theorem cleanedItem_obj_of (m : List (String × JValue))
    (h : objOfSan (.JObj m) = true) : cleanedItem (.JObj m) = true := h

theorem cleanedItem_cleanItem (x : JValue) : cleanedItem (cleanItem x) = true := by
  cases x with
  | JObj kvs => exact objOfSan_cleanPairs kvs
  | JNull => rw [cleanItem]; rw [show cleanedItem (.JStr (clean_text .JNull)) =
      (clean_text (.JStr (clean_text .JNull)) == clean_text .JNull) from rfl,
      clean_text_idem]; simp
  | JBool b => rw [cleanItem]; rw [show cleanedItem (.JStr (clean_text (.JBool b))) =
      (clean_text (.JStr (clean_text (.JBool b))) == clean_text (.JBool b)) from rfl,
      clean_text_idem]; simp
  | JNum n => rw [cleanItem]; rw [show cleanedItem (.JStr (clean_text (.JNum n))) =
      (clean_text (.JStr (clean_text (.JNum n))) == clean_text (.JNum n)) from rfl,
      clean_text_idem]; simp
  | JStr s => rw [cleanItem]; rw [show cleanedItem (.JStr (clean_text (.JStr s))) =
      (clean_text (.JStr (clean_text (.JStr s))) == clean_text (.JStr s)) from rfl,
      clean_text_idem]; simp
  | JList xs => rw [cleanItem]; rw [show cleanedItem (.JStr (clean_text (.JList xs))) =
      (clean_text (.JStr (clean_text (.JList xs))) == clean_text (.JList xs)) from rfl,
      clean_text_idem]; simp

theorem listOfClean_cleanItems (xs : List JValue) :
    listOfClean (.JList (xs.map cleanItem)) = true := by
  rw [listOfClean, List.all_map]
  apply List.all_eq_true.mpr
  intro x _
  exact cleanedItem_cleanItem x

theorem pipeline_eq_map (kvs : List (String × JValue)) :
    pipeline kvs = kvs.map fun p => (p.1, processEntry p.1 p.2) := by
  rw [pipeline, coerceFields, List.map_map]
  apply List.map_congr_left
  intro p _
  rcases p with ⟨k, v⟩
  simp only [Function.comp_apply, processEntry]
  by_cases hk : k ∈ listFields
  · rw [if_pos hk, if_pos hk]
  · by_cases ho : k = "other"
    · rw [if_neg hk, if_neg hk, if_pos ho, if_pos ho]
    · rw [if_neg hk, if_neg hk, if_neg ho, if_neg ho]

/-- C1 counterexample: the model reply `\x7b"work": 0\x7d` passes extraction and
the handler's shape coercion unchanged — the number survives both the cleaning
pass (which keeps non-str/dict/list values) and the coercion (which only
re-parses strings) — so the final record violates the claimed invariant: its
work field is neither a sequence nor made of sanitized leaves. -/
theorem c1_counterexample :
    handlerCoerce (parse_resume (.ok "\x7b\"work\": 0\x7d")) = .JObj [("work", .JNum 0)] ∧
    normInvariant [("work", .JNum 0)] = false := by
  exact ⟨rfl, rfl⟩

/-- C1 (amended): after extraction and the handler's shape coercion, each field
is normalized to the extent the arriving type allows: a string field (outside
the coerced ones) becomes a sanitized string; a mapping field becomes a mapping
of sanitized strings; a sequence field becomes a sequence of cleaned entries;
a section field arriving as a string is coerced to a sequence, and `other`
arriving as a string to a mapping.  Values of other types (null, bool, number)
pass through unchanged, so the claim's unconditional invariant holds only under
these type provisos. -/
theorem c1_normalization (kvs : List (String × JValue)) (k : String) (v : JValue)
    (hmem : (k, v) ∈ kvs) :
    ((k, processEntry k v) ∈ pipeline kvs) ∧
    (∀ raw m, jsonRepairLoads raw = some (.JObj m) →
      handlerCoerce (parse_resume (.ok raw)) = .JObj (pipeline m)) ∧
    (∀ s, v = .JStr s → k ∉ listFields → k ≠ "other" →
      isSanStr (processEntry k v) = true) ∧
    (∀ m, v = .JObj m → objOfSan (processEntry k v) = true) ∧
    (∀ xs, v = .JList xs → listOfClean (processEntry k v) = true) ∧
    (∀ s, v = .JStr s → k ∈ listFields → isJList (processEntry k v) = true) ∧
    (∀ s, v = .JStr s → k = "other" → isJObj (processEntry k v) = true) := by
  refine ⟨?_, ?_, ?_, ?_, ?_, ?_, ?_⟩
  · rw [pipeline_eq_map]
    exact List.mem_map_of_mem _ hmem
  · intro raw m hp
    rw [parse_resume, hp]
    rfl
  · intro s hv hk ho
    subst hv
    rw [processEntry, if_neg hk, if_neg ho, cleanTop]
    exact isSanStr_clean (.JStr s)
  · intro m hv
    subst hv
    rw [processEntry]
    by_cases hk : k ∈ listFields
    · rw [if_pos hk, cleanTop]
      exact objOfSan_cleanPairs m
    · by_cases ho : k = "other"
      · rw [if_neg hk, if_pos ho, cleanTop]
        exact objOfSan_cleanPairs m
      · rw [if_neg hk, if_neg ho, cleanTop]
        exact objOfSan_cleanPairs m
  · intro xs hv
    subst hv
    rw [processEntry]
    by_cases hk : k ∈ listFields
    · rw [if_pos hk, cleanTop]
      exact listOfClean_cleanItems xs
    · by_cases ho : k = "other"
      · rw [if_neg hk, if_pos ho, cleanTop]
        exact listOfClean_cleanItems xs
      · rw [if_neg hk, if_neg ho, cleanTop]
        exact listOfClean_cleanItems xs
  · intro s hv hk
    subst hv
    rw [processEntry, if_pos hk, cleanTop, coerceListField]
    rcases jsonRepairLoads (clean_text (.JStr s)) with _ | w
    · rfl
    · cases w with
      | JList ys => rfl
      | JNull => rfl
      | JBool b => rfl
      | JNum n => rfl
      | JStr t => rfl
      | JObj m => rfl
  · intro s hv ho
    subst hv
    have hk : k ∉ listFields := by
      subst ho
      decide
    rw [processEntry, if_neg hk, if_pos ho, cleanTop, coerceOther]
    rcases jsonRepairLoads (clean_text (.JStr s)) with _ | w
    · rfl
    · cases w with
      | JList ys => rfl
      | JNull => rfl
      | JBool b => rfl
      | JNum n => rfl
      | JStr t => rfl
      | JObj m => rfl

/-- Witness for C1: the amended theorem applied to a one-field reply whose
skills value is an unsanitized string. -/
theorem c1_witness :
    (("skills", processEntry "skills" (.JStr " a  b ")) ∈
      pipeline [("skills", .JStr " a  b ")]) ∧
    isSanStr (processEntry "skills" (.JStr " a  b ")) = true :=
  ⟨(c1_normalization [("skills", .JStr " a  b ")] "skills" (.JStr " a  b ")
      (List.mem_cons_self _ _)).1,
   (c1_normalization [("skills", .JStr " a  b ")] "skills" (.JStr " a  b ")
      (List.mem_cons_self _ _)).2.2.1 " a  b " rfl (by decide) (by decide)⟩

end ResumeParser

